import Mathlib

/-!
Shallow embedding of the multi-modal-ui inference orchestrator
(`src/api/api.py`) together with the audio-response splitting performed by
the UI caller (`src/app.py`).

External capabilities (filesystem, HTTP client, PIL, soundfile, and the
Phi-4 model/processor pair) are modelled as oracle functions collected in
an `Env` record; everything the repository's own code computes (URL
classification, path stripping, prompt assembly, echo slicing, error
wrapping, request validation, response splitting) is translated directly
from the source.
-/

/-! ## Prompt assembly (api.py lines 29-31, 65-67, 97-100) -/

def user_prompt : String := "<|user|>"

def assistant_prompt : String := "<|assistant|>"

def prompt_suffix : String := "<|end|>"

/-- Default instruction for images (api.py line 67). -/
def imageDefaultInstruction : String := "What is shown in this image?"

/-- Default instruction for audio (api.py line 99). -/
def audioDefaultInstruction : String :=
  "Transcribe the audio to text, and then translate the audio to French. Use <sep> as a separator between the original transcript and the translation."

/-- Python `custom_prompt or default`: both `None` and the empty string are
falsy, so either one selects the default. -/
def pyOr (custom : Option String) (default : String) : String :=
  match custom with
  | none => default
  | some s => if s = "" then default else s

inductive Modality where
  | image
  | audio
deriving DecidableEq

/-- The f-string prompt templates of api.py lines 67 and 100. -/
def assemblePrompt : Modality → Option String → String
  | .image, custom =>
      user_prompt ++ "<|image_1|>" ++ pyOr custom imageDefaultInstruction
        ++ prompt_suffix ++ assistant_prompt
  | .audio, custom =>
      user_prompt ++ "<|audio_1|>" ++ pyOr custom audioDefaultInstruction
        ++ prompt_suffix ++ assistant_prompt

/-! ## URL parsing (models `urllib.parse.urlparse` scheme/path extraction) -/

/-- Characters allowed in a URI scheme after the leading letter. -/
def isSchemeChar (c : Char) : Bool :=
  c.isAlphanum || c = '+' || c = '-' || c = '.'

/-- Splits a character list at its first colon, when one occurs. -/
def splitAtColon : List Char → Option (List Char × List Char)
  | [] => none
  | c :: cs =>
    if c = ':' then some ([], cs)
    else
      match splitAtColon cs with
      | none => none
      | some (a, b) => some (c :: a, b)

/-- Models `urllib.parse.urlparse`: the scheme is the lowercased text before
the first colon when it starts with a letter and uses only scheme
characters, otherwise empty; the second component is the remainder that
holds netloc and path. -/
def schemeSplit (url : List Char) : List Char × List Char :=
  match splitAtColon url with
  | none => ([], url)
  | some (a, b) =>
    match a with
    | [] => ([], url)
    | c :: _ => if c.isAlpha && a.all isSchemeChar then (a.map Char.toLower, b) else ([], url)

def urlScheme (url : String) : String := ⟨(schemeSplit url.data).1⟩

/-- Models the `path` component of `urlparse` for the remainder after the
scheme: an optional `//netloc` part is skipped, and the path stops at a
query or fragment delimiter. -/
def restPath (rest : List Char) : List Char :=
  let afterNetloc :=
    match rest with
    | '/' :: '/' :: t => t.dropWhile (fun c => c != '/' && c != '?' && c != '#')
    | r => r
  afterNetloc.takeWhile (fun c => c != '?' && c != '#')

def urlPath (url : String) : String := ⟨restPath (schemeSplit url.data).2⟩

/-- Python `path.lstrip("/")` (api.py line 41). -/
def lstripSlashes (s : String) : String := ⟨s.data.dropWhile (fun c => c == '/')⟩

/-- The path string the loader resolves for a local reference: for a
`file` scheme the parsed path with leading slashes stripped, otherwise the
raw reference (api.py lines 39-43). -/
def localPathOf (url : String) : String :=
  if urlScheme url = "file" then lstripSlashes (urlPath url) else url

/-! ## Environment: external capabilities as oracles -/

structure RemoteRequest where
  url : String
  userAgent : String
  stream : Bool
deriving DecidableEq

structure RemoteResponse where
  status : Nat
  reason : String
  content : List Nat
  contentType : Option String
deriving DecidableEq

/-- The browser-like User-Agent header of api.py line 56. -/
def browserUserAgent : String :=
  "Mozilla/5.0 (Windows NT 10.0; Win64; x64) AppleWebKit/537.36 (KHTML, like Gecko) Chrome/91.0.4472.124 Safari/537.36"

/-- What `load_file` hands to its caller: either an open OS file handle on a
local path (`open(abs_path, "rb")`) or an in-memory byte buffer
(`io.BytesIO(response.content)`). -/
inductive FileStream where
  | localHandle (absPath : String)
  | memoryBytes (content : List Nat)
deriving DecidableEq

/-- Whether the stream owns an OS-level file handle. -/
def isLocalHandle : FileStream → Bool
  | .localHandle _ => true
  | .memoryBytes _ => false

/-- Oracles for the external capabilities the orchestrator calls into. -/
structure Env where
  /-- `os.path.exists` -/
  pathExists : String → Bool
  /-- `os.path.abspath` -/
  abspath : String → String
  /-- `requests.get` -/
  httpGet : RemoteRequest → RemoteResponse
  /-- `PIL.Image.open`, result or raised-exception message -/
  openImage : FileStream → Except String Unit
  /-- `soundfile.read`, result or raised-exception message -/
  readAudio : FileStream → Except String Unit
  /-- `processor(text=prompt, images=image)` input ids, or failure -/
  tokenizeImage : String → Except String (List Nat)
  /-- `processor(text=prompt, audios=[...])` input ids, or failure -/
  tokenizeAudio : String → Except String (List Nat)
  /-- `model.generate(...)`: the raw output token sequence, or failure -/
  generate : List Nat → Except String (List Nat)
  /-- `processor.batch_decode(..., skip_special_tokens=True)[0]` -/
  decode : List Nat → String

/-! ## Resource Loader (api.py lines 33-63, `Phi4Model.load_file`) -/

def Phi4Model.load_file (env : Env) (url : String) : Except String FileStream :=
  if urlScheme url = "" ∨ urlScheme url = "file" then
    let absPath := env.abspath (localPathOf url)
    if env.pathExists absPath = false then
      .error ("Local file not found: " ++ absPath)
    else
      .ok (.localHandle absPath)
  else
    let response := env.httpGet { url := url, userAgent := browserUserAgent, stream := true }
    if response.status ≠ 200 then
      .error ("Failed to fetch remote file: HTTP " ++ toString response.status
        ++ " - " ++ response.reason)
    else
      .ok (.memoryBytes response.content)

/-! ## Inference pipeline (api.py lines 65-130) -/

/-- The echo-stripping slice `generate_ids[:, inputs.input_ids.shape[1]:]`
(api.py lines 83 and 118). -/
def sliceEcho (inputLen : Nat) (ids : List Nat) : List Nat := ids.drop inputLen

/-- The try-block body of `Phi4Model.process_image` (api.py lines 66-93).
The second component records whether a local OS file handle is still open
when control leaves the block: the source closes `file_obj` only after a
successful decode, so every raising step after the open leaves it open. -/
def Phi4Model.process_image_body (env : Env) (image_url : String)
    (custom_prompt : Option String) : Except String String × Bool :=
  let prompt := assemblePrompt .image custom_prompt
  match Phi4Model.load_file env image_url with
  | .error e => (.error e, false)
  | .ok file_obj =>
    match env.openImage file_obj with
    | .error e => (.error e, isLocalHandle file_obj)
    | .ok _ =>
      match env.tokenizeImage prompt with
      | .error e => (.error e, isLocalHandle file_obj)
      | .ok input_ids =>
        match env.generate input_ids with
        | .error e => (.error e, isLocalHandle file_obj)
        | .ok generate_ids =>
          let response := env.decode (sliceEcho input_ids.length generate_ids)
          (.ok response, false)

/-- `Phi4Model.process_image` with its except-clause rewrap
(api.py lines 94-95). -/
def Phi4Model.process_image (env : Env) (image_url : String)
    (custom_prompt : Option String) : Except String String × Bool :=
  match Phi4Model.process_image_body env image_url custom_prompt with
  | (.ok r, h) => (.ok r, h)
  | (.error e, h) => (.error ("Error processing image: " ++ e), h)

/-- The try-block body of `Phi4Model.process_audio` (api.py lines 98-128). -/
def Phi4Model.process_audio_body (env : Env) (audio_url : String)
    (custom_prompt : Option String) : Except String String × Bool :=
  let prompt := assemblePrompt .audio custom_prompt
  match Phi4Model.load_file env audio_url with
  | .error e => (.error e, false)
  | .ok file_obj =>
    match env.readAudio file_obj with
    | .error e => (.error e, isLocalHandle file_obj)
    | .ok _ =>
      match env.tokenizeAudio prompt with
      | .error e => (.error e, isLocalHandle file_obj)
      | .ok input_ids =>
        match env.generate input_ids with
        | .error e => (.error e, isLocalHandle file_obj)
        | .ok generate_ids =>
          let response := env.decode (sliceEcho input_ids.length generate_ids)
          (.ok response, false)

/-- `Phi4Model.process_audio` with its except-clause rewrap
(api.py lines 129-130). -/
def Phi4Model.process_audio (env : Env) (audio_url : String)
    (custom_prompt : Option String) : Except String String × Bool :=
  match Phi4Model.process_audio_body env audio_url custom_prompt with
  | (.ok r, h) => (.ok r, h)
  | (.error e, h) => (.error ("Error processing audio: " ++ e), h)

/-! ## Request façade (api.py lines 137-162) -/

/-- The JSON body the route returns: `jsonify({"response": ...})` or
`jsonify({"error": ...})`. -/
inductive RouteBody where
  | success (response : String)
  | failure (error : String)
deriving DecidableEq

/-- Key lookup in a JSON object modelled as an association list
(`data["k"]` / `data.get("k")`). -/
def lookupKey (data : List (String × String)) (k : String) : Option String :=
  match data with
  | [] => none
  | (k2, v) :: rest => if k2 = k then some v else lookupKey rest k

/-- The `POST /process_image` handler (api.py lines 137-148): status code,
response body, and whether `model.process_image` was invoked at all.
`none` models an absent body, and an empty object is falsy in Python, so
both fail the `not data` check. -/
def Api.process_image (env : Env) (body : Option (List (String × String))) :
    Nat × RouteBody × Bool :=
  match body with
  | none => (400, .failure "image_url is required", false)
  | some data =>
    if data.isEmpty then (400, .failure "image_url is required", false)
    else
      match lookupKey data "image_url" with
      | none => (400, .failure "image_url is required", false)
      | some image_url =>
        let custom_prompt := lookupKey data "prompt"
        match Phi4Model.process_image env image_url custom_prompt with
        | (.ok response, _) => (200, .success response, true)
        | (.error e, _) => (500, .failure e, true)

/-- The `POST /process_audio` handler (api.py lines 151-162). -/
def Api.process_audio (env : Env) (body : Option (List (String × String))) :
    Nat × RouteBody × Bool :=
  match body with
  | none => (400, .failure "audio_url is required", false)
  | some data =>
    if data.isEmpty then (400, .failure "audio_url is required", false)
    else
      match lookupKey data "audio_url" with
      | none => (400, .failure "audio_url is required", false)
      | some audio_url =>
        let custom_prompt := lookupKey data "prompt"
        match Phi4Model.process_audio env audio_url custom_prompt with
        | (.ok response, _) => (200, .success response, true)
        | (.error e, _) => (500, .failure e, true)

/-! ## Audio response splitting (app.py lines 306-314) -/

/-- Whether `p` is an initial segment of `s` (executable, used by the split
model below). -/
def leadMatches : List Char → List Char → Bool
  | [], _ => true
  | _ :: _, [] => false
  | p :: ps, c :: cs => if p = c then leadMatches ps cs else false

/-- Fuel-driven worker for Python `str.split(sep)`: scans left to right,
emitting the accumulated segment at each non-overlapping occurrence of
`sep`.  The fuel always suffices when it starts at the length of the
scanned list and `sep` is non-empty. -/
def pySplitAux (sep : List Char) : Nat → List Char → List Char → List (List Char)
  | _, [], acc => [acc.reverse]
  | 0, s, acc => [acc.reverse ++ s]
  | fuel + 1, c :: rest, acc =>
    if leadMatches sep (c :: rest) then
      acc.reverse :: pySplitAux sep fuel ((c :: rest).drop sep.length) []
    else
      pySplitAux sep fuel rest (c :: acc)

/-- Python `s.split(sep)` for a non-empty separator. -/
def pySplit (sep s : List Char) : List (List Char) := pySplitAux sep s.length s []

def sepMarker : String := "<sep>"

/-- Python substring containment (`sep in s`), executable. -/
def containsList (sep : List Char) : List Char → Bool
  | [] => sep.isEmpty
  | c :: rest => leadMatches sep (c :: rest) || containsList sep rest

/-- `"<sep>" in response` (app.py line 307). -/
def containsSep (s : String) : Bool := containsList sepMarker.data s.data

/-- The segments the caller renders (app.py lines 306-314): the parts of
`response.split("<sep>")` when the marker occurs, otherwise the whole
response as a single segment. -/
def audioResponseSegments (response : String) : List String :=
  if containsSep response then
    (pySplit sepMarker.data response.data).map (fun l => (⟨l⟩ : String))
  else
    [response]

/-! ## Concrete test environments -/

/-- An environment where no local path exists and every remote fetch
returns 404. -/
def testEnv : Env where
  pathExists := fun _ => false
  abspath := fun p => p
  httpGet := fun _ => { status := 404, reason := "Not Found", content := [], contentType := none }
  openImage := fun _ => .ok ()
  readAudio := fun _ => .ok ()
  tokenizeImage := fun _ => .ok []
  tokenizeAudio := fun _ => .ok []
  generate := fun ids => .ok ids
  decode := fun _ => ""

/-- An environment where the referenced local file exists but holds bytes
the media decoders reject. -/
def leakEnv : Env where
  pathExists := fun _ => true
  abspath := fun p => p
  httpGet := fun _ => { status := 404, reason := "Not Found", content := [], contentType := none }
  openImage := fun _ => .error "cannot identify image file"
  readAudio := fun _ => .error "Error opening file"
  tokenizeImage := fun _ => .ok [1, 2, 3]
  tokenizeAudio := fun _ => .ok [1, 2, 3]
  generate := fun ids => .ok ids
  decode := fun _ => ""

/-- An environment where the whole pipeline succeeds: the model echoes its
input and then emits one fresh token, decoded as a fixed caption. -/
def inferEnv : Env where
  pathExists := fun _ => true
  abspath := fun p => p
  httpGet := fun _ => { status := 200, reason := "OK", content := [1], contentType := none }
  openImage := fun _ => .ok ()
  readAudio := fun _ => .ok ()
  tokenizeImage := fun _ => .ok [1, 2]
  tokenizeAudio := fun _ => .ok [3, 4]
  generate := fun ids => .ok (ids ++ [9])
  decode := fun _ => "a cat"

/-- A 200 response declaring an image content-type. -/
def pngResponse : RemoteResponse :=
  { status := 200, reason := "OK", content := [137, 80, 78, 71], contentType := some "image/png" }

/-- The same bytes declared as audio instead. -/
def wavResponse : RemoteResponse :=
  { status := 200, reason := "OK", content := [137, 80, 78, 71], contentType := some "audio/x-wav" }

def pngEnv : Env := { testEnv with httpGet := fun _ => pngResponse }

def wavEnv : Env := { testEnv with httpGet := fun _ => wavResponse }

/-! ## Helper lemmas -/

theorem data_append (s t : String) : (s ++ t).data = s.data ++ t.data := rfl

theorem string_ext {s t : String} (h : s.data = t.data) : s = t :=
  congrArg String.mk h

theorem drop_length_append {α : Type} (a b : List α) : (a ++ b).drop a.length = b := by
  induction a with
  | nil => rfl
  | cons x xs ih => simp [ih]

theorem leadMatches_iff (p s : List Char) : leadMatches p s = true ↔ p <+: s := by
  induction p generalizing s with
  | nil => simp [leadMatches]
  | cons x xs ih =>
    cases s with
    | nil => simp [leadMatches]
    | cons c cs =>
      by_cases hx : x = c
      · subst hx
        simp [leadMatches, List.cons_prefix_cons, ih]
      · simp [leadMatches, hx, List.cons_prefix_cons]

theorem isInfixCons {sep : List Char} {c : Char} {s : List Char} :
    sep <:+: (c :: s) ↔ sep <+: (c :: s) ∨ sep <:+: s := by
  constructor
  · rintro ⟨u, v, huv⟩
    cases u with
    | nil => exact Or.inl ⟨v, by simpa using huv⟩
    | cons c0 u0 =>
      simp only [List.cons_append] at huv
      injection huv with h1 h2
      exact Or.inr ⟨u0, v, h2⟩
  · rintro (⟨t, ht⟩ | ⟨u, v, huv⟩)
    · exact ⟨[], t, by simpa using ht⟩
    · exact ⟨c :: u, v, by simp [← huv, List.cons_append]⟩

theorem containsList_iff (sep s : List Char) : containsList sep s = true ↔ sep <:+: s := by
  induction s with
  | nil =>
    constructor
    · intro h
      have hsep : sep = [] := by
        cases sep with
        | nil => rfl
        | cons x xs => simp [containsList] at h
      subst hsep
      exact ⟨[], [], rfl⟩
    · rintro ⟨u, v, huv⟩
      have h2 : sep = [] := (List.append_eq_nil.mp (List.append_eq_nil.mp huv).1).2
      subst h2
      simp [containsList]
  | cons c rest ih =>
    simp [containsList, leadMatches_iff, ih, isInfixCons]

theorem pySplitAux_length_pos (sep : List Char) (fuel : Nat) (s acc : List Char) :
    0 < (pySplitAux sep fuel s acc).length := by
  induction fuel generalizing s acc with
  | zero => cases s <;> simp [pySplitAux]
  | succ n ih =>
    cases s with
    | nil => simp [pySplitAux]
    | cons c rest =>
      by_cases h : leadMatches sep (c :: rest) = true
      · simp [pySplitAux, h]
      · simpa [pySplitAux, h] using ih rest (c :: acc)

theorem pySplitAux_no_sep (sep : List Char) (fuel : Nat) (s acc : List Char)
    (h : ¬ sep <:+: s) : pySplitAux sep fuel s acc = [acc.reverse ++ s] := by
  induction fuel generalizing s acc with
  | zero => cases s <;> simp [pySplitAux]
  | succ n ih =>
    cases s with
    | nil => simp [pySplitAux]
    | cons c rest =>
      have hpre : ¬ leadMatches sep (c :: rest) = true := by
        intro hc
        obtain ⟨t, ht⟩ := (leadMatches_iff sep (c :: rest)).mp hc
        exact h ⟨[], t, by simpa using ht⟩
      have hrest : ¬ sep <:+: rest := by
        intro hc
        exact h (isInfixCons.mpr (Or.inr hc))
      simp [pySplitAux, hpre, ih rest (c :: acc) hrest, List.reverse_cons, List.append_assoc]

theorem pySplitAux_with_sep (sep : List Char) (hsep : sep ≠ []) (fuel : Nat) :
    ∀ (s acc : List Char), s.length ≤ fuel → sep <:+: s →
      2 ≤ (pySplitAux sep fuel s acc).length := by
  induction fuel with
  | zero =>
    intro s acc hlen hinf
    have hnil : s = [] := List.length_eq_zero.mp (Nat.le_zero.mp hlen)
    subst hnil
    obtain ⟨u, v, huv⟩ := hinf
    exact absurd (List.append_eq_nil.mp (List.append_eq_nil.mp huv).1).2 hsep
  | succ n ih =>
    intro s acc hlen hinf
    cases s with
    | nil =>
      obtain ⟨u, v, huv⟩ := hinf
      exact absurd (List.append_eq_nil.mp (List.append_eq_nil.mp huv).1).2 hsep
    | cons c rest =>
      by_cases h : leadMatches sep (c :: rest) = true
      · have hpos := pySplitAux_length_pos sep n ((c :: rest).drop sep.length) []
        simp only [pySplitAux, h, if_true, List.length_cons]
        omega
      · have hrest : sep <:+: rest := by
          rcases isInfixCons.mp hinf with hp | hi
          · exact absurd ((leadMatches_iff sep (c :: rest)).mpr hp) h
          · exact hi
        have hlen2 : rest.length ≤ n := by
          simpa using Nat.le_of_succ_le_succ hlen
        simpa [pySplitAux, h] using ih rest (c :: acc) hlen2 hrest

/-- The assembled prompt always begins with the `<|user|>` control token. -/
theorem assemblePrompt_head (m : Modality) (c : Option String) :
    ∃ rest : List Char, (assemblePrompt m c).data = user_prompt.data ++ rest := by
  cases m with
  | image =>
    exact ⟨("<|image_1|>" ++ pyOr c imageDefaultInstruction ++ prompt_suffix
      ++ assistant_prompt).data, by simp [assemblePrompt, data_append, List.append_assoc]⟩
  | audio =>
    exact ⟨("<|audio_1|>" ++ pyOr c audioDefaultInstruction ++ prompt_suffix
      ++ assistant_prompt).data, by simp [assemblePrompt, data_append, List.append_assoc]⟩

/-! ## Claim theorems -/

/-- Claim C2, counterexample: the claim quantifies over every instruction
string, but for the empty string the code substitutes the image default
instead of passing the instruction through, so the assembled prompt is not
the template applied to the empty instruction. -/
theorem c2_counterexample :
    ¬ assemblePrompt .image (some "") =
      "<|user|><|image_1|>" ++ "" ++ "<|end|><|assistant|>" := by decide

/-- Claim C2 (amended): for every non-empty instruction string `s` the
assembled prompt is exactly the modality template around `s`; an absent
instruction substitutes the per-modality default, and the audio default
carries the literal `<sep>` marker. -/
theorem c2_prompt_assembly (s : String) (h : s ≠ "") :
    assemblePrompt .image (some s) = "<|user|><|image_1|>" ++ s ++ "<|end|><|assistant|>" ∧
    assemblePrompt .audio (some s) = "<|user|><|audio_1|>" ++ s ++ "<|end|><|assistant|>" ∧
    assemblePrompt .image none =
      "<|user|><|image_1|>What is shown in this image?<|end|><|assistant|>" ∧
    assemblePrompt .audio none =
      "<|user|><|audio_1|>" ++ audioDefaultInstruction ++ "<|end|><|assistant|>" ∧
    containsSep audioDefaultInstruction = true := by
  refine ⟨?_, ?_, by rfl, by rfl, by rfl⟩
  · apply string_ext
    simp [assemblePrompt, user_prompt, prompt_suffix, assistant_prompt, pyOr, h,
      data_append, List.append_assoc]
  · apply string_ext
    simp [assemblePrompt, user_prompt, prompt_suffix, assistant_prompt, pyOr, h,
      data_append, List.append_assoc]

/-- Witness for C2: the amended theorem evaluated at the instruction "X". -/
theorem c2_witness :
    assemblePrompt .audio (some "X") = "<|user|><|audio_1|>X<|end|><|assistant|>" :=
  Eq.trans ((c2_prompt_assembly "X" (by decide)).2.1) (by rfl)

/-- Claim C10: an empty user-supplied instruction is treated exactly like an
absent one — the per-modality default is substituted, and the empty
instruction is never interpolated verbatim. -/
theorem c10_empty_instruction_defaults :
    (∀ m : Modality, assemblePrompt m (some "") = assemblePrompt m none) ∧
    assemblePrompt .image (some "") =
      "<|user|><|image_1|>What is shown in this image?<|end|><|assistant|>" ∧
    assemblePrompt .audio (some "") =
      "<|user|><|audio_1|>" ++ audioDefaultInstruction ++ "<|end|><|assistant|>" := by
  refine ⟨fun m => ?_, by rfl, by rfl⟩
  cases m <;> rfl

/-- Claim C9, counterexample: the response "x<sep><sep>y" contains the
literal `<sep>` marker, yet the caller's split yields three segments, one
of which is empty after trimming — not exactly two non-empty segments. -/
theorem c9_counterexample :
    containsSep "x<sep><sep>y" = true ∧
    ¬ ((audioResponseSegments "x<sep><sep>y").length = 2 ∧
        ∀ seg ∈ audioResponseSegments "x<sep><sep>y", seg.trim ≠ "") := by decide

/-- Claim C9 (amended): a response containing `<sep>` splits into at least
two segments (which need not be non-empty after trimming), and a response
without `<sep>` is kept as the single segment `[resp]`. -/
theorem c9_separator_split (resp : String) :
    (containsSep resp = true → 2 ≤ (audioResponseSegments resp).length) ∧
    (containsSep resp = false → audioResponseSegments resp = [resp]) := by
  constructor
  · intro h
    have hinf : sepMarker.data <:+: resp.data := (containsList_iff _ _).mp h
    have hsep : sepMarker.data ≠ [] := by decide
    have h2 := pySplitAux_with_sep sepMarker.data hsep resp.data.length resp.data []
      (le_refl _) hinf
    simpa [audioResponseSegments, h, pySplit, List.length_map] using h2
  · intro h
    simp [audioResponseSegments, h]

/-- Witness for C9: the amended theorem evaluated on a response with one
separator and on a response without one. -/
theorem c9_witness :
    2 ≤ (audioResponseSegments "hello<sep>bonjour").length ∧
    audioResponseSegments "no separator here" = ["no separator here"] :=
  ⟨(c9_separator_split "hello<sep>bonjour").1 (by rfl),
   (c9_separator_split "no separator here").2 (by rfl)⟩

theorem scheme_not_local {url : String} (h1 : ¬ urlScheme url = "")
    (h2 : ¬ urlScheme url = "file") :
    ¬ (urlScheme url = "" ∨ urlScheme url = "file") :=
  fun hc => hc.elim h1 h2

/-- Claim C4: a reference with empty or `file` scheme is loaded locally —
the `file` scheme strips the scheme and leading slashes, the empty scheme
uses the raw string; the path is resolved through `abspath`, the load fails
with the file-not-found error exactly when the resolved path does not
exist, otherwise it yields an open handle on that path; no HTTP request is
involved. -/
theorem c4_local_loading (env : Env) (url : String)
    (h : urlScheme url = "" ∨ urlScheme url = "file") :
    (Phi4Model.load_file env url =
        .error ("Local file not found: " ++ env.abspath (localPathOf url)) ↔
      env.pathExists (env.abspath (localPathOf url)) = false) ∧
    (env.pathExists (env.abspath (localPathOf url)) = true →
      Phi4Model.load_file env url = .ok (.localHandle (env.abspath (localPathOf url)))) ∧
    (∀ g, Phi4Model.load_file { env with httpGet := g } url = Phi4Model.load_file env url) ∧
    (urlScheme url = "file" → localPathOf url = lstripSlashes (urlPath url)) ∧
    (urlScheme url = "" → localPathOf url = url) := by
  refine ⟨⟨fun he => ?_, fun hp => ?_⟩, fun hp => ?_, fun g => ?_, fun hf => ?_, fun h0 => ?_⟩
  · by_cases hp : env.pathExists (env.abspath (localPathOf url)) = false
    · exact hp
    · simp [Phi4Model.load_file, h, hp] at he
  · simp [Phi4Model.load_file, h, hp]
  · simp [Phi4Model.load_file, h, hp]
  · simp [Phi4Model.load_file, h]
  · simp [localPathOf, hf]
  · have hf : ¬ urlScheme url = "file" := by
      rw [h0]
      decide
    simp [localPathOf, hf]

/-- Witness for C4: a `file://` URI whose stripped path does not exist in
`testEnv` fails with the not-found error; an existing plain path in
`leakEnv` yields an open handle. -/
theorem c4_witness :
    Phi4Model.load_file testEnv "file:///tmp/data/img.png" =
      .error "Local file not found: tmp/data/img.png" ∧
    Phi4Model.load_file leakEnv "test_files/test_image.jpg" =
      .ok (.localHandle "test_files/test_image.jpg") := by
  constructor
  · exact (c4_local_loading testEnv "file:///tmp/data/img.png" (Or.inr (by rfl))).1.mpr (by rfl)
  · exact (c4_local_loading leakEnv "test_files/test_image.jpg" (Or.inl (by rfl))).2.1 (by rfl)

/-- Claim C5: every reference with a non-empty, non-`file` scheme goes
through the remote path — a GET at that URL with the browser-like
User-Agent and streaming enabled — and fails exactly when the response
status is not 200, otherwise yields the body as an in-memory byte
stream. -/
theorem c5_remote_loading (env : Env) (url : String) (resp : RemoteResponse)
    (h1 : ¬ urlScheme url = "") (h2 : ¬ urlScheme url = "file")
    (hresp : env.httpGet { url := url, userAgent := browserUserAgent, stream := true } = resp) :
    ((∃ msg, Phi4Model.load_file env url = .error msg) ↔ resp.status ≠ 200) ∧
    (resp.status = 200 → Phi4Model.load_file env url = .ok (.memoryBytes resp.content)) ∧
    (resp.status ≠ 200 → Phi4Model.load_file env url =
      .error ("Failed to fetch remote file: HTTP " ++ toString resp.status
        ++ " - " ++ resp.reason)) := by
  have heval : Phi4Model.load_file env url =
      if resp.status ≠ 200 then
        .error ("Failed to fetch remote file: HTTP " ++ toString resp.status
          ++ " - " ++ resp.reason)
      else .ok (.memoryBytes resp.content) := by
    simp only [Phi4Model.load_file, if_neg (scheme_not_local h1 h2), hresp]
  by_cases hs : resp.status = 200
  · rw [heval, if_neg (by simp [hs])]
    refine ⟨⟨fun hmsg => ?_, fun hne => absurd hs hne⟩, fun _ => rfl, fun hne => absurd hs hne⟩
    obtain ⟨msg, hmsg⟩ := hmsg
    exact Except.noConfusion hmsg
  · rw [heval, if_pos hs]
    exact ⟨⟨fun _ => hs, fun _ => ⟨_, rfl⟩⟩, fun h200 => absurd h200 hs, fun _ => rfl⟩

/-- Witness for C5: an `ftp://` reference is routed through the remote path
and fails with the HTTP-status error under `testEnv`, whose client answers
404 to every request. -/
theorem c5_witness :
    Phi4Model.load_file testEnv "ftp://host/file.bin" =
      .error "Failed to fetch remote file: HTTP 404 - Not Found" :=
  (c5_remote_loading testEnv "ftp://host/file.bin" _ (by decide) (by decide) rfl).2.2
    (by decide)

/-- Claim C6, counterexample: two successful remote fetches that differ
only in the declared content-type header produce identical loader results —
the loader returns `io.BytesIO(response.content)` and discards the
content-type, so the RawPayload does not preserve it. -/
theorem c6_counterexample :
    pngResponse.contentType ≠ wavResponse.contentType ∧
    Phi4Model.load_file pngEnv "https://example.com/media" =
      .ok (.memoryBytes [137, 80, 78, 71]) ∧
    Phi4Model.load_file pngEnv "https://example.com/media" =
      Phi4Model.load_file wavEnv "https://example.com/media" :=
  ⟨by decide, by rfl, by rfl⟩

/-- Claim C6 (amended): a successful remote fetch returns exactly the
response body as in-memory bytes; the declared content-type header is not
preserved — replacing it by anything leaves the loader result unchanged. -/
theorem c6_content_bytes (env : Env) (url : String) (resp : RemoteResponse)
    (h1 : ¬ urlScheme url = "") (h2 : ¬ urlScheme url = "file")
    (hresp : env.httpGet { url := url, userAgent := browserUserAgent, stream := true } = resp)
    (hok : resp.status = 200) :
    Phi4Model.load_file env url = .ok (.memoryBytes resp.content) ∧
    ∀ ct : Option String,
      Phi4Model.load_file
          { env with httpGet := fun r => { env.httpGet r with contentType := ct } } url =
        Phi4Model.load_file env url := by
  constructor
  · simp only [Phi4Model.load_file, if_neg (scheme_not_local h1 h2), hresp]
    simp [hok]
  · intro ct
    simp only [Phi4Model.load_file, if_neg (scheme_not_local h1 h2)]

/-- Witness for C6: the amended theorem instantiated at the concrete PNG
response environment. -/
theorem c6_witness :
    Phi4Model.load_file pngEnv "https://example.com/media" =
      .ok (.memoryBytes pngResponse.content) ∧
    Phi4Model.load_file
        { pngEnv with httpGet := fun r => { pngEnv.httpGet r with contentType := none } }
        "https://example.com/media" =
      Phi4Model.load_file pngEnv "https://example.com/media" := by
  have h := c6_content_bytes pngEnv "https://example.com/media" pngResponse
    (by decide) (by decide) rfl rfl
  exact ⟨h.1, h.2 none⟩

/-- Claim C1: for a generation whose raw output echoes the input ids, the
invoker slices off exactly the first `len(input_ids)` positions, decodes
only the fresh tokens, and — since decoding suppresses special tokens, so
the decoded text never contains the `<|user|>` control token that every
assembled prompt starts with — the returned text never has the assembled
prompt as a prefix. -/
theorem c1_echo_stripping (env : Env) (imgUrl audUrl : String)
    (instrI instrA : Option String) (streamI streamA : FileStream)
    (idsI newI idsA newA : List Nat)
    (hlI : Phi4Model.load_file env imgUrl = .ok streamI)
    (hoI : env.openImage streamI = .ok ())
    (htI : env.tokenizeImage (assemblePrompt .image instrI) = .ok idsI)
    (hgI : env.generate idsI = .ok (idsI ++ newI))
    (hsI : containsList user_prompt.data (env.decode newI).data = false)
    (hlA : Phi4Model.load_file env audUrl = .ok streamA)
    (hoA : env.readAudio streamA = .ok ())
    (htA : env.tokenizeAudio (assemblePrompt .audio instrA) = .ok idsA)
    (hgA : env.generate idsA = .ok (idsA ++ newA))
    (hsA : containsList user_prompt.data (env.decode newA).data = false) :
    Phi4Model.process_image env imgUrl instrI = (.ok (env.decode newI), false) ∧
    ¬ (assemblePrompt .image instrI).data <+: (env.decode newI).data ∧
    Phi4Model.process_audio env audUrl instrA = (.ok (env.decode newA), false) ∧
    ¬ (assemblePrompt .audio instrA).data <+: (env.decode newA).data := by
  have noPre : ∀ (m : Modality) (c : Option String) (txt : String),
      containsList user_prompt.data txt.data = false →
      ¬ (assemblePrompt m c).data <+: txt.data := by
    intro m c txt hc hp
    obtain ⟨rest, hrest⟩ := assemblePrompt_head m c
    obtain ⟨t, ht⟩ := hp
    have ht2 : user_prompt.data ++ (rest ++ t) = txt.data := by
      rw [← List.append_assoc, ← hrest]
      exact ht
    have hinf : user_prompt.data <:+: txt.data := ⟨[], rest ++ t, by simpa using ht2⟩
    rw [(containsList_iff user_prompt.data txt.data).mpr hinf] at hc
    exact Bool.noConfusion hc
  refine ⟨?_, noPre .image instrI (env.decode newI) hsI, ?_,
    noPre .audio instrA (env.decode newA) hsA⟩
  · simp only [Phi4Model.process_image, Phi4Model.process_image_body, hlI, hoI, htI, hgI,
      sliceEcho, drop_length_append]
  · simp only [Phi4Model.process_audio, Phi4Model.process_audio_body, hlA, hoA, htA, hgA,
      sliceEcho, drop_length_append]

/-- Witness for C1: the fully successful environment `inferEnv`, where the
model echoes `[1,2]` (image) or `[3,4]` (audio) and emits the fresh token
`[9]`, decoded as "a cat". -/
theorem c1_witness :
    Phi4Model.process_image inferEnv "img.png" none = (.ok "a cat", false) ∧
    ¬ (assemblePrompt .image none).data <+: ("a cat" : String).data ∧
    Phi4Model.process_audio inferEnv "song.wav" none = (.ok "a cat", false) ∧
    ¬ (assemblePrompt .audio none).data <+: ("a cat" : String).data :=
  c1_echo_stripping inferEnv "img.png" "song.wav" none none
    (.localHandle "img.png") (.localHandle "song.wav") [1, 2] [9] [3, 4] [9]
    rfl rfl rfl rfl rfl rfl rfl rfl rfl rfl

/-- Claim C3: in `leakEnv` the referenced local file exists, so `load_file`
opens an OS handle; the media decoding step then fails, the except clause
re-raises without closing, and the handle is still open when the request
fails — the source releases the handle only on the success path, so the
release-on-every-exit-path claim fails on the code. -/
theorem c3_handle_leak :
    Phi4Model.process_image leakEnv "corrupt.jpg" none =
      (.error "Error processing image: cannot identify image file", true) ∧
    Phi4Model.process_audio leakEnv "corrupt.wav" none =
      (.error "Error processing audio: Error opening file", true) :=
  ⟨rfl, rfl⟩

/-- Claim C7: a request whose body is absent or lacks the required URL key
gets exactly 400 with the fixed validation message, and the processing
pipeline (loading, decoding, inference) is never invoked. -/
theorem c7_validation (env : Env) (body bodyA : Option (List (String × String)))
    (h1 : body = none ∨ ∃ data, body = some data ∧ lookupKey data "image_url" = none)
    (h2 : bodyA = none ∨ ∃ data, bodyA = some data ∧ lookupKey data "audio_url" = none) :
    Api.process_image env body = (400, .failure "image_url is required", false) ∧
    Api.process_audio env bodyA = (400, .failure "audio_url is required", false) := by
  constructor
  · rcases h1 with rfl | ⟨data, rfl, hk⟩
    · rfl
    · by_cases he : data.isEmpty
      · simp [Api.process_image, he]
      · simp [Api.process_image, he, hk]
  · rcases h2 with rfl | ⟨data, rfl, hk⟩
    · rfl
    · by_cases he : data.isEmpty
      · simp [Api.process_audio, he]
      · simp [Api.process_audio, he, hk]

/-- Witness for C7: a body without `image_url` and an absent body. -/
theorem c7_witness :
    Api.process_image testEnv (some [("prompt", "hi")]) =
      (400, .failure "image_url is required", false) ∧
    Api.process_audio testEnv none = (400, .failure "audio_url is required", false) :=
  c7_validation testEnv (some [("prompt", "hi")]) none
    (Or.inr ⟨[("prompt", "hi")], rfl, rfl⟩) (Or.inl rfl)

/-- Claim C8: whenever the inner pipeline fails for a validated request,
the façade answers 500 with the pipeline's single error string as the
body, and that string always carries the stage-identifying prefix. -/
theorem c8_error_envelope (env : Env) (data : List (String × String))
    (imgUrl audUrl : String) (eI eA : String) (bI bA : Bool)
    (hkI : lookupKey data "image_url" = some imgUrl)
    (hpI : Phi4Model.process_image env imgUrl (lookupKey data "prompt") = (.error eI, bI))
    (hkA : lookupKey data "audio_url" = some audUrl)
    (hpA : Phi4Model.process_audio env audUrl (lookupKey data "prompt") = (.error eA, bA)) :
    Api.process_image env (some data) = (500, .failure eI, true) ∧
    (∃ d, eI = "Error processing image: " ++ d) ∧
    Api.process_audio env (some data) = (500, .failure eA, true) ∧
    (∃ d, eA = "Error processing audio: " ++ d) := by
  have hexI : ∃ d, eI = "Error processing image: " ++ d := by
    rcases hb : Phi4Model.process_image_body env imgUrl (lookupKey data "prompt")
      with ⟨e0 | r, flag⟩
    · have h2 : Phi4Model.process_image env imgUrl (lookupKey data "prompt") =
          (.error ("Error processing image: " ++ e0), flag) := by
        simp [Phi4Model.process_image, hb]
      rw [hpI] at h2
      have h3 : (Except.error eI : Except String String) =
          .error ("Error processing image: " ++ e0) := congrArg Prod.fst h2
      refine ⟨e0, ?_⟩
      injection h3
    · simp [Phi4Model.process_image, hb] at hpI
  have hexA : ∃ d, eA = "Error processing audio: " ++ d := by
    rcases hb : Phi4Model.process_audio_body env audUrl (lookupKey data "prompt")
      with ⟨e0 | r, flag⟩
    · have h2 : Phi4Model.process_audio env audUrl (lookupKey data "prompt") =
          (.error ("Error processing audio: " ++ e0), flag) := by
        simp [Phi4Model.process_audio, hb]
      rw [hpA] at h2
      have h3 : (Except.error eA : Except String String) =
          .error ("Error processing audio: " ++ e0) := congrArg Prod.fst h2
      refine ⟨e0, ?_⟩
      injection h3
    · simp [Phi4Model.process_audio, hb] at hpA
  refine ⟨?_, hexI, ?_, hexA⟩
  · cases data with
    | nil => simp [lookupKey] at hkI
    | cons p rest => simp [Api.process_image, hkI, hpI]
  · cases data with
    | nil => simp [lookupKey] at hkA
    | cons p rest => simp [Api.process_audio, hkA, hpA]

/-- Witness for C8: under `testEnv` no local path exists, so both
pipelines fail at the loading stage and the façade answers 500 with the
prefixed message. -/
theorem c8_witness :
    Api.process_image testEnv (some [("image_url", "nofile.jpg"), ("audio_url", "nofile.wav")]) =
      (500, .failure "Error processing image: Local file not found: nofile.jpg", true) ∧
    (∃ d, "Error processing image: Local file not found: nofile.jpg" =
      "Error processing image: " ++ d) ∧
    Api.process_audio testEnv (some [("image_url", "nofile.jpg"), ("audio_url", "nofile.wav")]) =
      (500, .failure "Error processing audio: Local file not found: nofile.wav", true) ∧
    (∃ d, "Error processing audio: Local file not found: nofile.wav" =
      "Error processing audio: " ++ d) :=
  c8_error_envelope testEnv [("image_url", "nofile.jpg"), ("audio_url", "nofile.wav")]
    "nofile.jpg" "nofile.wav"
    "Error processing image: Local file not found: nofile.jpg"
    "Error processing audio: Local file not found: nofile.wav"
    false false rfl rfl rfl rfl
